import Mathlib

/-!
A shallow embedding of the I-JEPA pretraining script (`pretrain_IJEPA.py`)
together with proofs about its masking-parameter sampling, its momentum
(EMA) update of the teacher encoder, its momentum-coefficient schedule,
its corpus discovery, and the event order of its training loop.

Modelling conventions:
* Real scalars (momentum coefficients, aspect ratios, scales, losses,
  parameter values) are modelled as rationals `ℚ`; the script's Python
  floats are treated in exact arithmetic.
* A parameter tensor is a flat `List ℚ`; an encoder's parameter list is a
  `List (List ℚ)` in the order yielded by `parameters()`.
* `np.random.uniform(lo, hi)` is modelled by drawing a unit-interval value
  `u` from an explicit stream (a `List ℚ`) and mapping it affinely to
  `lo + u * (hi - lo)`; the stream makes the number and order of draws of
  each method explicit.
* File names are modelled as `List Char`; Python's `str.lower` on a name is
  `List.map Char.toLower` and `str.endswith(ext)` is `List.isSuffixOf`.
-/

/-- Hyperparameters of the `IJEPA` Lightning module, with the default
values of `IJEPA.__init__` in `pretrain_IJEPA.py`. -/
structure IJEPAConfig where
  img_size : ℕ := 224
  patch_size : ℕ := 16
  in_chans : ℕ := 3
  embed_dim : ℕ := 64
  enc_heads : ℕ := 8
  enc_depth : ℕ := 8
  decoder_depth : ℕ := 6
  lr : ℚ := 1 / 1000000
  weight_decay : ℚ := 5 / 100
  target_aspect_ratio : ℚ × ℚ := (75 / 100, 150 / 100)
  target_scale : ℚ × ℚ := (15 / 100, 20 / 100)
  context_aspect_ratio : ℚ := 1
  context_scale : ℚ × ℚ := (85 / 100, 1)
  M : ℕ := 4
  m : ℚ := 996 / 1000
  m_start_end : ℚ × ℚ := (996 / 1000, 1)

/-- The configuration with every hyperparameter left at its Python default. -/
def defaultConfig : IJEPAConfig := {}

/-- Model of `np.random.uniform(lo, hi)`: the unit draw `u ∈ [0, 1]` is
mapped affinely onto `[lo, hi]`. -/
def np_uniform (lo hi u : ℚ) : ℚ := lo + u * (hi - lo)

/-- The four scalar masking parameters produced at the top of
`training_step` / `validation_step` and passed to the forward call. -/
structure MaskParams where
  target_aspect_ratio : ℚ
  target_scale : ℚ
  context_aspect_ratio : ℚ
  context_scale : ℚ
  deriving DecidableEq

/-- Lines 156-159 of `training_step`: sample the target aspect ratio, the
target scale and the context scale uniformly from their configured ranges
(consuming the unit draws `u1`, `u2`, `u3` in that order) and take the
context aspect ratio as the configured constant, never sampled. -/
def sampleMaskParams (cfg : IJEPAConfig) (u1 u2 u3 : ℚ) : MaskParams :=
  { target_aspect_ratio :=
      np_uniform cfg.target_aspect_ratio.1 cfg.target_aspect_ratio.2 u1
    target_scale := np_uniform cfg.target_scale.1 cfg.target_scale.2 u2
    context_aspect_ratio := cfg.context_aspect_ratio
    context_scale := np_uniform cfg.context_scale.1 cfg.context_scale.2 u3 }

/-- The parameter lists of `model.student_encoder` and
`model.teacher_encoder`, in the order yielded by `parameters()`. -/
structure EncoderPair where
  student : List (List ℚ)
  teacher : List (List ℚ)
  deriving DecidableEq

/-- The loop body of `update_momentum`: for each `(student_param,
teacher_param)` pair produced by `zip`, the in-place
`teacher_param.data.mul_(m).add_(student_param.data, alpha = 1 - m)`
replaces each teacher entry `t` by `t * m + s * (1 - m)`. -/
def ema_update (m : ℚ) (student teacher : List (List ℚ)) : List (List ℚ) :=
  List.zipWith
    (fun sp tp => List.zipWith (fun s t => t * m + s * (1 - m)) sp tp)
    student teacher

/-- `IJEPA.update_momentum(m)` (lines 145-150): rewrite every teacher
parameter from the zipped student/teacher parameter lists, under
`torch.no_grad()`; student parameters are read only. -/
def update_momentum (m : ℚ) (e : EncoderPair) : EncoderPair :=
  { student := e.student, teacher := ema_update m e.student e.teacher }

/-- The mutable state of the `IJEPA` module that the claims are about: the
momentum coefficient `self.m`, the two encoders' parameters, and the
wrapped network's `mode` attribute (`self.model.mode`). -/
structure ModelState where
  m : ℚ
  encoders : EncoderPair
  mode : String
  deriving DecidableEq

/-- `nn.MSELoss()` applied to two flattened tensors: the mean of the
squared elementwise differences. -/
def mse_criterion (pred target : List ℚ) : ℚ :=
  (List.zipWith (fun a b => (a - b) ^ 2) pred target).sum / (pred.length : ℚ)

/-- `IJEPA.training_step` (lines 153-165): sample the masking parameters
once for the whole step, run one forward call on the entire batch `x` with
those shared parameters (the wrapped network is an external collaborator,
abstracted as `fwd`, which sees the current `mode` attribute), and compute
the MSE loss between the returned student prediction and teacher target.
The method reads `s` but writes no model state; `batch_idx` is unused. -/
def training_step (cfg : IJEPAConfig)
    (fwd : String → List ℚ → MaskParams → List ℚ × List ℚ)
    (x : List ℚ) (batch_idx : ℕ) (us : List ℚ) (s : ModelState) :
    MaskParams × ℚ :=
  let p := sampleMaskParams cfg (us.getD 0 0) (us.getD 1 0) (us.getD 2 0)
  let y := fwd s.mode x p
  (p, mse_criterion y.1 y.2)

/-- `IJEPA.validation_step` (lines 167-178): its body performs the same
sampling, forward call and loss computation as `training_step`, logging
`val_loss` instead of `train_loss`; it writes no model state. -/
def validation_step (cfg : IJEPAConfig)
    (fwd : String → List ℚ → MaskParams → List ℚ × List ℚ)
    (x : List ℚ) (batch_idx : ℕ) (us : List ℚ) (s : ModelState) :
    MaskParams × ℚ :=
  let p := sampleMaskParams cfg (us.getD 0 0) (us.getD 1 0) (us.getD 2 0)
  let y := fwd s.mode x p
  (p, mse_criterion y.1 y.2)

/-- The validation path of the training loop around `validation_step`:
the framework runs validation under `no_grad`, calls no `backward`, no
optimizer and none of the gradient hooks (in particular not
`on_after_backward`), so the model state is passed through unchanged while
the step's outputs are produced. -/
def fit_validation_iteration (cfg : IJEPAConfig)
    (fwd : String → List ℚ → MaskParams → List ℚ × List ℚ)
    (x : List ℚ) (batch_idx : ℕ) (us : List ℚ) (s : ModelState) :
    (MaskParams × ℚ) × ModelState :=
  (validation_step cfg fwd x batch_idx us s, s)

/-- `IJEPA.predict_step` (lines 180-187): sample the target aspect ratio
and target scale from their configured ranges (unit draws `us[0]`,
`us[1]`), take the configured context aspect ratio, hard-code the context
scale to `1` (the configured `context_scale` range is never read), set
`self.model.mode = "test"` and only then run the forward call, which
therefore executes in `"test"` mode; the mutated state is returned. -/
def predict_step (cfg : IJEPAConfig)
    (fwd : String → List ℚ → MaskParams → List ℚ × List ℚ)
    (batch : List ℚ) (batch_idx dataloader_idx : ℕ) (us : List ℚ)
    (s : ModelState) : (MaskParams × (List ℚ × List ℚ)) × ModelState :=
  let p : MaskParams :=
    { target_aspect_ratio :=
        np_uniform cfg.target_aspect_ratio.1 cfg.target_aspect_ratio.2
          (us.getD 0 0)
      target_scale :=
        np_uniform cfg.target_scale.1 cfg.target_scale.2 (us.getD 1 0)
      context_aspect_ratio := cfg.context_aspect_ratio
      context_scale := 1 }
  let s' : ModelState := { s with mode := "test" }
  ((p, fwd s'.mode batch p), s')

/-- `IJEPA.on_after_backward` (lines 189-191): apply the momentum update
with the current coefficient `self.m`, then increment `self.m` by
`(m_start_end[1] - m_start_end[0]) / total`, where `total` stands for the
framework's `trainer.estimated_stepping_batches`. -/
def on_after_backward (cfg : IJEPAConfig) (total : ℕ) (s : ModelState) :
    ModelState :=
  { s with
    encoders := update_momentum s.m s.encoders
    m := s.m + (cfg.m_start_end.2 - cfg.m_start_end.1) / (total : ℚ) }

/-- The observable events of one training step. -/
inductive TrainEvent where
  | forwardPass
  | lossComputation
  | logTrainLoss
  | backprop
  | momentumUpdate
  | mIncrement
  | optimizerStep
  | schedulerStep
  deriving DecidableEq, BEq

/-- Event trace of one optimization step of `trainer.fit`: the
`training_step` body runs (forward, loss, log), then the framework calls
`loss.backward()`, then the `on_after_backward` hook — which PyTorch
Lightning invokes after `loss.backward()` and before `optimizer.step()` —
where this module performs the momentum update and the `m` increment, then
the optimizer steps, then the LR scheduler (configured with interval
"step") steps. -/
def lightning_train_step_events : List TrainEvent :=
  [TrainEvent.forwardPass, TrainEvent.lossComputation,
   TrainEvent.logTrainLoss, TrainEvent.backprop,
   TrainEvent.momentumUpdate, TrainEvent.mIncrement,
   TrainEvent.optimizerStep, TrainEvent.schedulerStep]

/-- Directory trees, mutually with lists of subtrees: a directory holds a
list of file names and a list of subdirectories. -/
inductive FileTree where
  | node (files : List (List Char)) (subdirs : List FileTree)

mutual

/-- Model of the `os.walk(self.dataset_path)` traversal in `load_images`:
every file name at every depth under the root, in traversal order. (The
code stores `os.path.join(root, file)`; selection only inspects the file
name, which is what the model keeps.) -/
def FileTree.walkFiles : FileTree → List (List Char)
  | .node files subdirs => files ++ FileTree.walkFilesList subdirs

/-- Traversal of a list of subdirectories, concatenating their files. -/
def FileTree.walkFilesList : List FileTree → List (List Char)
  | [] => []
  | d :: ds => FileTree.walkFiles d ++ FileTree.walkFilesList ds

end

mutual

/-- The file name `f` occurs somewhere (at any depth) in the tree. -/
def FileTree.HasFile : FileTree → List Char → Prop
  | .node files subdirs, f => f ∈ files ∨ FileTree.HasFileList subdirs f

/-- The file name `f` occurs in one of the listed subtrees. -/
def FileTree.HasFileList : List FileTree → List Char → Prop
  | [], _ => False
  | d :: ds, f => FileTree.HasFile d f ∨ FileTree.HasFileList ds f

end

/-- The selection test of `load_images` (line 39):
`file.lower().endswith('.jpeg')`. -/
def matches_jpeg (f : List Char) : Bool :=
  List.isSuffixOf ".jpeg".toList (f.map Char.toLower)

/-- The `image_files` list built by `IJEPADataset.load_images`
(lines 36-40): the walked file names that pass the extension test, kept in
traversal order. -/
def load_images_files (t : FileTree) : List (List Char) :=
  (FileTree.walkFiles t).filter matches_jpeg

/-- The `self.data` list of a constructed `IJEPADataset`: one decoded
image per matched file (each image is represented here by the name of the
file it was decoded from; decoding itself is done by the external image
library). `load_images` returns this list unconditionally — no emptiness
check and no exception appears anywhere on the path. -/
def IJEPADataset_data (t : FileTree) : List (List Char) :=
  load_images_files t

/-- `IJEPADataset.__len__`: the length of `self.data`. -/
def IJEPADataset_len (t : FileTree) : ℕ :=
  (IJEPADataset_data t).length

/-- The attributes computed by `IJEPA.__init__` that the claims mention. -/
structure IJEPAModelFields where
  M : ℕ
  m : ℚ
  num_tokens : ℕ

/-- `IJEPA.__init__` (lines 124-136): store the hyperparameters and derive
`self.num_tokens = (img_size // patch_size) ** 2` (line 135, with Python
floor division on naturals). -/
def IJEPA_init (cfg : IJEPAConfig) : IJEPAModelFields :=
  { M := cfg.M, m := cfg.m,
    num_tokens := (cfg.img_size / cfg.patch_size) ^ 2 }

/-! Helper lemmas. -/

/-- Evaluating one zipped momentum row at an in-bounds index. -/
theorem ema_update_row (m : ℚ) (sp tp : List ℚ) (j : ℕ)
    (hj : j < sp.length) (hj' : j < tp.length) :
    (List.zipWith (fun s t => t * m + s * (1 - m)) sp tp).getD j 0
      = tp[j] * m + sp[j] * (1 - m) := by
  have hlen : j < (List.zipWith (fun s t => t * m + s * (1 - m)) sp tp).length := by
    simp [List.length_zipWith]; omega
  rw [List.getD_eq_getElem _ _ hlen, List.getElem_zipWith]

/-- A zipped momentum row with coefficient `1` returns the teacher row. -/
theorem ema_row_one (sp tp : List ℚ) (h : sp.length = tp.length) :
    List.zipWith (fun s t => t * (1 : ℚ) + s * (1 - 1)) sp tp = tp := by
  induction sp generalizing tp with
  | nil =>
    cases tp with
    | nil => rfl
    | cons y ys => simp at h
  | cons x xs ih =>
    cases tp with
    | nil => simp at h
    | cons y ys =>
      simp only [List.zipWith_cons_cons, List.length_cons] at h ⊢
      rw [ih ys (by omega)]
      norm_num

/-- A zipped momentum row with coefficient `0` returns the student row. -/
theorem ema_row_zero (sp tp : List ℚ) (h : sp.length = tp.length) :
    List.zipWith (fun s t => t * (0 : ℚ) + s * (1 - 0)) sp tp = sp := by
  induction sp generalizing tp with
  | nil =>
    cases tp with
    | nil => rfl
    | cons y ys => simp at h
  | cons x xs ih =>
    cases tp with
    | nil => simp at h
    | cons y ys =>
      simp only [List.zipWith_cons_cons, List.length_cons] at h ⊢
      rw [ih ys (by omega)]
      norm_num

/-- The student and teacher parameter lists have pairwise equal tensor
shapes (the two encoders are structurally identical). -/
def sameShape (e : EncoderPair) : Prop :=
  List.Forall₂ (fun sp tp => sp.length = tp.length) e.student e.teacher

/-- The momentum coefficient after `k` iterations of the hook is the
initial coefficient plus `k` copies of the per-step increment. -/
theorem on_after_backward_iterate_m (cfg : IJEPAConfig) (total : ℕ)
    (s : ModelState) (k : ℕ) :
    ((on_after_backward cfg total)^[k] s).m
      = s.m + k * ((cfg.m_start_end.2 - cfg.m_start_end.1) / (total : ℚ)) := by
  induction k generalizing s with
  | zero => simp
  | succ j ih =>
    rw [Function.iterate_succ_apply, ih]
    simp only [on_after_backward]
    push_cast
    ring

/-! Claim theorems. -/

/-- C1: a single call to `update_momentum m` maps every entry of every
teacher parameter tensor to `m` times its old value plus `1 - m` times the
corresponding student entry, across all zipped parameter pairs of the two
encoders. -/
theorem update_momentum_ema_rule (m : ℚ) (e : EncoderPair) (i j : ℕ)
    (hi : i < e.student.length) (hi' : i < e.teacher.length)
    (hj : j < (e.student.getD i []).length)
    (hj' : j < (e.teacher.getD i []).length) :
    (((update_momentum m e).teacher.getD i []).getD j 0)
      = m * ((e.teacher.getD i []).getD j 0)
        + (1 - m) * ((e.student.getD i []).getD j 0) := by
  rw [List.getD_eq_getElem _ _ hi] at hj
  rw [List.getD_eq_getElem _ _ hi'] at hj'
  have hlen : i < (ema_update m e.student e.teacher).length := by
    simp [ema_update, List.length_zipWith]; omega
  show ((ema_update m e.student e.teacher).getD i []).getD j 0 = _
  rw [List.getD_eq_getElem _ _ hlen]
  unfold ema_update
  rw [List.getElem_zipWith, ema_update_row m _ _ j hj hj',
    List.getD_eq_getElem _ _ hi, List.getD_eq_getElem _ _ hi',
    List.getD_eq_getElem _ _ hj, List.getD_eq_getElem _ _ hj']
  ring

/-- C1 witness: with `m = 1/2`, one student tensor `[2]` and one teacher
tensor `[5]`, the updated teacher entry is `1/2 * 5 + 1/2 * 2`. -/
theorem update_momentum_ema_rule_witness :
    (0 < (EncoderPair.mk [[2]] [[5]]).student.length)
    ∧ (0 < (EncoderPair.mk [[2]] [[5]]).teacher.length)
    ∧ (0 < ((EncoderPair.mk [[2]] [[5]]).student.getD 0 []).length)
    ∧ (0 < ((EncoderPair.mk [[2]] [[5]]).teacher.getD 0 []).length)
    ∧ (((update_momentum (1/2) (EncoderPair.mk [[2]] [[5]])).teacher.getD 0 []).getD 0 0)
        = (1/2 : ℚ) * 5 + (1 - 1/2) * 2 :=
  ⟨by decide, by decide, by decide, by decide,
    update_momentum_ema_rule (1/2) (EncoderPair.mk [[2]] [[5]]) 0 0
      (by decide) (by decide) (by decide) (by decide)⟩

/-- C8: on shape-matched encoders, the momentum update with `m = 1` leaves
every teacher parameter unchanged, and with `m = 0` it replaces the
teacher parameters by the student parameters. -/
theorem update_momentum_boundary (e : EncoderPair) (h : sameShape e) :
    (update_momentum 1 e).teacher = e.teacher
    ∧ (update_momentum 0 e).teacher = e.student := by
  obtain ⟨a, b⟩ := e
  simp only [sameShape] at h
  constructor
  · show ema_update 1 a b = b
    unfold ema_update
    induction h with
    | nil => rfl
    | cons h₁ h₂ ih =>
      simp only [List.zipWith_cons_cons]
      rw [ema_row_one _ _ h₁, ih]
  · show ema_update 0 a b = a
    unfold ema_update
    induction h with
    | nil => rfl
    | cons h₁ h₂ ih =>
      simp only [List.zipWith_cons_cons]
      rw [ema_row_zero _ _ h₁, ih]

/-- C8 witness: on the encoder pair with student tensors `[1, 2]` and
teacher tensors `[3, 4]`, `m = 1` keeps the teacher and `m = 0` copies the
student. -/
theorem update_momentum_boundary_witness :
    sameShape (EncoderPair.mk [[1, 2]] [[3, 4]])
    ∧ (update_momentum 1 (EncoderPair.mk [[1, 2]] [[3, 4]])).teacher = [[3, 4]]
    ∧ (update_momentum 0 (EncoderPair.mk [[1, 2]] [[3, 4]])).teacher = [[1, 2]] := by
  have hs : sameShape (EncoderPair.mk [[1, 2]] [[3, 4]]) := by
    unfold sameShape
    exact List.Forall₂.cons (by decide) List.Forall₂.nil
  exact ⟨hs, (update_momentum_boundary _ hs).1,
    (update_momentum_boundary _ hs).2⟩

/-- C2: each `on_after_backward` call increments `m` by exactly
`(m_end - m_start) / total`; with `m_end ≥ m_start` and `total > 0` the
coefficient is non-decreasing along the iterated hook, and starting from
`m_start` it equals `m_end` exactly after `total` iterations (hence within
the `1/1000` tolerance). -/
theorem momentum_schedule (cfg : IJEPAConfig) (total : ℕ) (s : ModelState)
    (k : ℕ) (hle : cfg.m_start_end.1 ≤ cfg.m_start_end.2) (hpos : 0 < total) :
    (on_after_backward cfg total s).m
        = s.m + (cfg.m_start_end.2 - cfg.m_start_end.1) / (total : ℚ)
    ∧ ((on_after_backward cfg total)^[k] s).m
        ≤ ((on_after_backward cfg total)^[k + 1] s).m
    ∧ (s.m = cfg.m_start_end.1 →
        ((on_after_backward cfg total)^[total] s).m = cfg.m_start_end.2
        ∧ |((on_after_backward cfg total)^[total] s).m - cfg.m_start_end.2|
            < 1 / 1000) := by
  have hc : (0 : ℚ) ≤ (cfg.m_start_end.2 - cfg.m_start_end.1) / (total : ℚ) := by
    apply div_nonneg (by linarith)
    exact_mod_cast Nat.zero_le total
  have htot : ((total : ℚ)) ≠ 0 := by
    exact_mod_cast Nat.pos_iff_ne_zero.mp hpos
  refine ⟨rfl, ?_, ?_⟩
  · rw [on_after_backward_iterate_m, on_after_backward_iterate_m]
    push_cast
    nlinarith
  · intro hm
    have hfin : ((on_after_backward cfg total)^[total] s).m = cfg.m_start_end.2 := by
      rw [on_after_backward_iterate_m, hm]
      field_simp
    exact ⟨hfin, by rw [hfin]; simp⟩

/-- C2 witness: with the default hyperparameters (`m_start_end =
(0.996, 1)`), four planned steps and an initial state at `m = 0.996`, the
schedule reaches exactly `1` after four hook calls. -/
theorem momentum_schedule_witness :
    ((996 : ℚ) / 1000 ≤ 1) ∧ (0 < 4)
    ∧ ((on_after_backward defaultConfig 4)^[4]
        (ModelState.mk (996 / 1000) (EncoderPair.mk [] []) "train")).m = 1 := by
  refine ⟨by norm_num, by norm_num, ?_⟩
  have h := momentum_schedule defaultConfig 4
    (ModelState.mk (996 / 1000) (EncoderPair.mk [] []) "train") 0
    (by norm_num [defaultConfig]) (by norm_num)
  exact (h.2.2 rfl).1

/-- Image of a unit draw under the affine uniform map stays in the range. -/
theorem np_uniform_bounds (lo hi u : ℚ) (h : lo ≤ hi) (h0 : 0 ≤ u)
    (h1 : u ≤ 1) : lo ≤ np_uniform lo hi u ∧ np_uniform lo hi u ≤ hi := by
  unfold np_uniform
  constructor <;> nlinarith

/-- C3 counterexample: in the event trace of one optimization step, the
optimizer step does not precede the momentum update — the update runs in
the `on_after_backward` hook, before `optimizer.step()`, so the claimed
order (backpropagate, optimizer step, scheduler step, momentum update)
does not hold. -/
theorem train_step_order_counterexample :
    ¬ (lightning_train_step_events.indexOf TrainEvent.optimizerStep
        < lightning_train_step_events.indexOf TrainEvent.momentumUpdate) := by
  decide

/-- C3 amended: in every training step the momentum update of the teacher
parameters is performed after gradient backpropagation but before the
optimizer step; the per-step event order is backpropagate, then momentum
update, then optimizer step, then scheduler step. -/
theorem train_step_order :
    lightning_train_step_events.indexOf TrainEvent.backprop
        < lightning_train_step_events.indexOf TrainEvent.momentumUpdate
    ∧ lightning_train_step_events.indexOf TrainEvent.momentumUpdate
        < lightning_train_step_events.indexOf TrainEvent.optimizerStep
    ∧ lightning_train_step_events.indexOf TrainEvent.optimizerStep
        < lightning_train_step_events.indexOf TrainEvent.schedulerStep
    ∧ lightning_train_step_events.indexOf TrainEvent.forwardPass
        < lightning_train_step_events.indexOf TrainEvent.backprop := by
  decide

/-- C4: a training step samples the masking parameters exactly once — the
target aspect ratio uniformly from `target_aspect_ratio`, the target scale
uniformly from `target_scale`, the context scale uniformly from
`context_scale`, and the context aspect ratio as the fixed configured
constant — independently of the batch, and the single sampled parameter
set is used for the one forward call on the entire batch. -/
theorem training_step_sampling (cfg : IJEPAConfig)
    (fwd : String → List ℚ → MaskParams → List ℚ × List ℚ)
    (x x₂ : List ℚ) (bi bi₂ : ℕ) (us : List ℚ) (s : ModelState)
    (h1 : cfg.target_aspect_ratio.1 ≤ cfg.target_aspect_ratio.2)
    (h2 : cfg.target_scale.1 ≤ cfg.target_scale.2)
    (h3 : cfg.context_scale.1 ≤ cfg.context_scale.2)
    (hu0 : 0 ≤ us.getD 0 0) (hu0' : us.getD 0 0 ≤ 1)
    (hu1 : 0 ≤ us.getD 1 0) (hu1' : us.getD 1 0 ≤ 1)
    (hu2 : 0 ≤ us.getD 2 0) (hu2' : us.getD 2 0 ≤ 1) :
    (training_step cfg fwd x bi us s).1.context_aspect_ratio
        = cfg.context_aspect_ratio
    ∧ (training_step cfg fwd x bi us s).1
        = sampleMaskParams cfg (us.getD 0 0) (us.getD 1 0) (us.getD 2 0)
    ∧ (training_step cfg fwd x bi us s).1
        = (training_step cfg fwd x₂ bi₂ us s).1
    ∧ cfg.target_aspect_ratio.1
        ≤ (training_step cfg fwd x bi us s).1.target_aspect_ratio
    ∧ (training_step cfg fwd x bi us s).1.target_aspect_ratio
        ≤ cfg.target_aspect_ratio.2
    ∧ cfg.target_scale.1 ≤ (training_step cfg fwd x bi us s).1.target_scale
    ∧ (training_step cfg fwd x bi us s).1.target_scale ≤ cfg.target_scale.2
    ∧ cfg.context_scale.1 ≤ (training_step cfg fwd x bi us s).1.context_scale
    ∧ (training_step cfg fwd x bi us s).1.context_scale ≤ cfg.context_scale.2
    ∧ (training_step cfg fwd x bi us s).2
        = mse_criterion
            (fwd s.mode x ((training_step cfg fwd x bi us s).1)).1
            (fwd s.mode x ((training_step cfg fwd x bi us s).1)).2 := by
  have hA := np_uniform_bounds _ _ _ h1 hu0 hu0'
  have hS := np_uniform_bounds _ _ _ h2 hu1 hu1'
  have hC := np_uniform_bounds _ _ _ h3 hu2 hu2'
  exact ⟨rfl, rfl, rfl, hA.1, hA.2, hS.1, hS.2, hC.1, hC.2, rfl⟩

/-- C4 witness: with the default configuration, an empty batch and the
unit draws `0, 1, 1/2`, the hypotheses hold and the sampled context aspect
ratio is the configured constant. -/
theorem training_step_sampling_witness :
    (defaultConfig.target_aspect_ratio.1 ≤ defaultConfig.target_aspect_ratio.2)
    ∧ (defaultConfig.target_scale.1 ≤ defaultConfig.target_scale.2)
    ∧ (defaultConfig.context_scale.1 ≤ defaultConfig.context_scale.2)
    ∧ (0 ≤ ([0, 1, 1/2] : List ℚ).getD 0 0)
    ∧ (([0, 1, 1/2] : List ℚ).getD 0 0 ≤ 1)
    ∧ (0 ≤ ([0, 1, 1/2] : List ℚ).getD 1 0)
    ∧ (([0, 1, 1/2] : List ℚ).getD 1 0 ≤ 1)
    ∧ (0 ≤ ([0, 1, 1/2] : List ℚ).getD 2 0)
    ∧ (([0, 1, 1/2] : List ℚ).getD 2 0 ≤ 1)
    ∧ (training_step defaultConfig (fun _ _ _ => ([], [])) [] 0
        ([0, 1, 1/2] : List ℚ)
        (ModelState.mk (996/1000) (EncoderPair.mk [] []) "train")).1.context_aspect_ratio
      = defaultConfig.context_aspect_ratio := by
  refine ⟨by norm_num [defaultConfig], by norm_num [defaultConfig],
    by norm_num [defaultConfig], by norm_num, by norm_num, by norm_num,
    by norm_num, by norm_num, by norm_num, ?_⟩
  exact (training_step_sampling defaultConfig (fun _ _ _ => ([], [])) [] []
    0 0 ([0, 1, 1/2] : List ℚ)
    (ModelState.mk (996/1000) (EncoderPair.mk [] []) "train")
    (by norm_num [defaultConfig]) (by norm_num [defaultConfig])
    (by norm_num [defaultConfig]) (by norm_num) (by norm_num) (by norm_num)
    (by norm_num) (by norm_num) (by norm_num)).1

/-- C5 (code behavior at the failing input): constructing the dataset on a
directory containing only `photo.png` — zero matching images — yields
`data = []` and `len(dataset) = 0`; `load_images` raises nothing on this
path, so no descriptive error precedes batch consumption. -/
theorem empty_corpus_no_error :
    IJEPADataset_data (FileTree.node ["photo.png".toList] []) = []
    ∧ IJEPADataset_len (FileTree.node ["photo.png".toList] []) = 0 := by
  constructor
  · simp only [IJEPADataset_data, load_images_files, FileTree.walkFiles,
      FileTree.walkFilesList, List.append_nil]
    decide
  · simp only [IJEPADataset_len, IJEPADataset_data, load_images_files,
      FileTree.walkFiles, FileTree.walkFilesList, List.append_nil]
    decide

mutual

/-- Membership in the walked file list is occurrence in the tree. -/
theorem mem_walkFiles (t : FileTree) (f : List Char) :
    f ∈ FileTree.walkFiles t ↔ FileTree.HasFile t f := by
  cases t with
  | node files subdirs =>
    rw [FileTree.walkFiles, FileTree.HasFile]
    simp [List.mem_append, mem_walkFilesList subdirs f]

/-- Membership in the walked list of a forest is occurrence in a member. -/
theorem mem_walkFilesList (ds : List FileTree) (f : List Char) :
    f ∈ FileTree.walkFilesList ds ↔ FileTree.HasFileList ds f := by
  cases ds with
  | nil => simp [FileTree.walkFilesList, FileTree.HasFileList]
  | cons d ds' =>
    rw [FileTree.walkFilesList, FileTree.HasFileList]
    simp [List.mem_append, mem_walkFiles d f, mem_walkFilesList ds' f]

end

/-- C6: a file name is selected by `load_images` if and only if it occurs
at some depth under the root and its lowercased name ends with the
supported image extension `.jpeg`. -/
theorem load_images_selection (t : FileTree) (f : List Char) :
    f ∈ load_images_files t
      ↔ (FileTree.HasFile t f ∧ matches_jpeg f = true) := by
  rw [load_images_files, List.mem_filter, mem_walkFiles]

/-- C7: a validation step computes exactly what a training step computes —
same masking-parameter sampling, same single forward call, same loss —
while the surrounding validation loop runs no backward pass and none of
the gradient hooks, so the momentum coefficient and the teacher (indeed
the whole model state) are unchanged. -/
theorem validation_step_frame (cfg : IJEPAConfig)
    (fwd : String → List ℚ → MaskParams → List ℚ × List ℚ)
    (x : List ℚ) (bi : ℕ) (us : List ℚ) (s : ModelState) :
    validation_step cfg fwd x bi us s = training_step cfg fwd x bi us s
    ∧ (validation_step cfg fwd x bi us s).1
        = sampleMaskParams cfg (us.getD 0 0) (us.getD 1 0) (us.getD 2 0)
    ∧ (fit_validation_iteration cfg fwd x bi us s).2 = s
    ∧ (fit_validation_iteration cfg fwd x bi us s).2.m = s.m
    ∧ (fit_validation_iteration cfg fwd x bi us s).2.encoders.teacher
        = s.encoders.teacher
    ∧ (fit_validation_iteration cfg fwd x bi us s).1
        = validation_step cfg fwd x bi us s :=
  ⟨rfl, rfl, rfl, rfl, rfl, rfl⟩

/-- C9: the number of patch-grid tokens computed at model construction is
the squared quotient of the image size by the patch size. -/
theorem num_tokens_formula (cfg : IJEPAConfig) :
    (IJEPA_init cfg).num_tokens = (cfg.img_size / cfg.patch_size) ^ 2 := rfl

/-- C10: `predict_step` uses a context scale of exactly `1` whatever the
configured `context_scale` range, still samples the target aspect ratio
and target scale uniformly from their configured ranges, sets the wrapped
network's `mode` to `"test"` before the forward call (which therefore runs
in `"test"` mode), and returns a state in which that mutation persists
while `m` and the encoder parameters are untouched. -/
theorem predict_step_behavior (cfg : IJEPAConfig)
    (fwd : String → List ℚ → MaskParams → List ℚ × List ℚ)
    (batch : List ℚ) (bi di : ℕ) (us : List ℚ) (s : ModelState)
    (r : ℚ × ℚ)
    (h1 : cfg.target_aspect_ratio.1 ≤ cfg.target_aspect_ratio.2)
    (h2 : cfg.target_scale.1 ≤ cfg.target_scale.2)
    (hu0 : 0 ≤ us.getD 0 0) (hu0' : us.getD 0 0 ≤ 1)
    (hu1 : 0 ≤ us.getD 1 0) (hu1' : us.getD 1 0 ≤ 1) :
    (predict_step cfg fwd batch bi di us s).1.1.context_scale = 1
    ∧ (predict_step { cfg with context_scale := r } fwd batch bi di us
        s).1.1.context_scale = 1
    ∧ (predict_step cfg fwd batch bi di us s).1.1.context_aspect_ratio
        = cfg.context_aspect_ratio
    ∧ (predict_step cfg fwd batch bi di us s).1.1.target_aspect_ratio
        = np_uniform cfg.target_aspect_ratio.1 cfg.target_aspect_ratio.2
            (us.getD 0 0)
    ∧ cfg.target_aspect_ratio.1
        ≤ (predict_step cfg fwd batch bi di us s).1.1.target_aspect_ratio
    ∧ (predict_step cfg fwd batch bi di us s).1.1.target_aspect_ratio
        ≤ cfg.target_aspect_ratio.2
    ∧ (predict_step cfg fwd batch bi di us s).1.1.target_scale
        = np_uniform cfg.target_scale.1 cfg.target_scale.2 (us.getD 1 0)
    ∧ cfg.target_scale.1
        ≤ (predict_step cfg fwd batch bi di us s).1.1.target_scale
    ∧ (predict_step cfg fwd batch bi di us s).1.1.target_scale
        ≤ cfg.target_scale.2
    ∧ (predict_step cfg fwd batch bi di us s).2.mode = "test"
    ∧ (predict_step cfg fwd batch bi di us s).1.2
        = fwd "test" batch ((predict_step cfg fwd batch bi di us s).1.1)
    ∧ (predict_step cfg fwd batch bi di us s).2.m = s.m
    ∧ (predict_step cfg fwd batch bi di us s).2.encoders = s.encoders := by
  have hA := np_uniform_bounds _ _ _ h1 hu0 hu0'
  have hS := np_uniform_bounds _ _ _ h2 hu1 hu1'
  exact ⟨rfl, rfl, rfl, rfl, hA.1, hA.2, rfl, hS.1, hS.2, rfl, rfl, rfl, rfl⟩

/-- C10 witness: with the default configuration and unit draws `0, 1`, the
hypotheses hold and the predicted context scale is exactly `1`. -/
theorem predict_step_behavior_witness :
    (defaultConfig.target_aspect_ratio.1 ≤ defaultConfig.target_aspect_ratio.2)
    ∧ (defaultConfig.target_scale.1 ≤ defaultConfig.target_scale.2)
    ∧ (0 ≤ ([0, 1] : List ℚ).getD 0 0) ∧ (([0, 1] : List ℚ).getD 0 0 ≤ 1)
    ∧ (0 ≤ ([0, 1] : List ℚ).getD 1 0) ∧ (([0, 1] : List ℚ).getD 1 0 ≤ 1)
    ∧ (predict_step defaultConfig (fun _ _ _ => ([], [])) [] 0 0
        ([0, 1] : List ℚ)
        (ModelState.mk (996/1000) (EncoderPair.mk [] []) "train")).1.1.context_scale
      = 1 := by
  refine ⟨by norm_num [defaultConfig], by norm_num [defaultConfig],
    by norm_num, by norm_num, by norm_num, by norm_num, ?_⟩
  exact (predict_step_behavior defaultConfig (fun _ _ _ => ([], [])) [] 0 0
    ([0, 1] : List ℚ)
    (ModelState.mk (996/1000) (EncoderPair.mk [] []) "train") (0, 0)
    (by norm_num [defaultConfig]) (by norm_num [defaultConfig])
    (by norm_num) (by norm_num) (by norm_num) (by norm_num)).1
